import Mathlib

/-!
Verification development for the proton-drive-sync repository.

This file gives a shallow embedding of the core of the source tree
(src/types.rs, src/db.rs, src/processor.rs, src/sync.rs, src/watcher.rs,
src/proton.rs, src/cli) and proves or refutes the frozen claims about it.

Modelling conventions:
* timestamps are integers (seconds, UTC); the SQL `datetime` comparisons on
  stored timestamps are chronological comparisons on these integers;
* the SQLite tables of db.rs become lists of rows inside `DbState`, kept in
  rowid (insertion) order; `INSERT OR REPLACE` on a keyed table removes the
  conflicting row and appends the new one, exactly as SQLite does;
* machine integers (i64 ids, retry counters) are `Int`/`Nat`; no arithmetic
  here ever approaches an overflow boundary (`n_retries` is bounded by 5
  before any exponentiation is performed);
* the remote HTTP client of proton.rs is an external collaborator: its
  responses are an oracle (`RemoteEnv`) and the calls the processor makes to
  it are recorded in a `RemoteCall` trace.  File bytes and MIME types are
  passed through to the client unchanged and are irrelevant to every claim,
  so they are elided from the trace entries.
-/

/-- Event type of a sync job (types.rs, `SyncEventType`). -/
inductive SyncEventType
  | createFile
  | createDir
  | update
  | delete
deriving DecidableEq, Repr

/-- Status of a sync job (types.rs, `SyncJobStatus`). -/
inductive SyncJobStatus
  | pending
  | processing
  | synced
  | blocked
deriving DecidableEq, Repr

/-- Remote delete behavior (types.rs, `RemoteDeleteBehavior`). -/
inductive RemoteDeleteBehavior
  | trash
  | permanent
deriving DecidableEq, Repr

/-- Engine state (sync.rs, `SyncState`). -/
inductive SyncState
  | idle
  | running
  | paused
  | error
deriving DecidableEq, Repr

/-- A row of the `sync_jobs` table (types.rs `SyncJob`, db.rs schema).
`n_retries` is `INTEGER DEFAULT 0` and is only ever incremented, so it is a
natural number. -/
structure SyncJob where
  id : Int
  event_type : SyncEventType
  local_path : String
  remote_path : String
  status : SyncJobStatus
  retry_at : Option Int
  n_retries : Nat
  last_error : Option String
  change_token : Option String
  old_local_path : Option String
  old_remote_path : Option String
  created_at : Int
deriving DecidableEq, Repr

/-- A row of the `file_state` table (types.rs `FileState`). -/
structure FileState where
  local_path : String
  change_token : String
  updated_at : Int
deriving DecidableEq, Repr

/-- A row of the `node_mapping` table (types.rs `NodeMapping`). -/
structure NodeMapping where
  local_path : String
  remote_path : String
  node_uid : String
  parent_node_uid : String
  is_directory : Bool
  updated_at : Int
deriving DecidableEq, Repr

/-- An event to be enqueued (types.rs `SyncEvent`). -/
structure SyncEvent where
  event_type : SyncEventType
  local_path : String
  remote_path : String
  change_token : Option String
  old_local_path : Option String
  old_remote_path : Option String
deriving DecidableEq, Repr

/-- Result of a remote create call (types.rs `CreateResult`). -/
structure CreateResult where
  success : Bool
  node_uid : Option String
  error : Option String
deriving DecidableEq, Repr

/-- The error kinds of error.rs that the processor paths can produce. -/
inductive SyncError
  | fileNotFound (path : String)
  | invalidPath (msg : String)
  | sync (msg : String)
  | protonApi (msg : String)
deriving DecidableEq, Repr

instance : DecidableEq (Except SyncError Unit) := fun a b =>
  match a, b with
  | Except.ok u, Except.ok v => isTrue (by cases u; cases v; rfl)
  | Except.error e1, Except.error e2 =>
    if h : e1 = e2 then isTrue (by rw [h]) else
      isFalse (by intro hc; cases hc; exact h rfl)
  | Except.ok _, Except.error _ => isFalse (by intro hc; cases hc)
  | Except.error _, Except.ok _ => isFalse (by intro hc; cases hc)

/-- Display of an error, standing for `e.to_string()` of error.rs. -/
def errMessage : SyncError → String
  | .fileNotFound p => "File not found: " ++ p
  | .invalidPath m => "Invalid path: " ++ m
  | .sync m => "Sync error: " ++ m
  | .protonApi m => "Proton API error: " ++ m

/-- The mutable contents of the SQLite database of db.rs: one list of rows
per table, in rowid order, plus the AUTOINCREMENT counter for `sync_jobs`. -/
structure DbState where
  next_id : Int
  signals : List String
  flags : List String
  sync_jobs : List SyncJob
  file_state : List FileState
  node_mapping : List NodeMapping
  processing_queue : List String
deriving DecidableEq, Repr

/-- A freshly migrated database: every table empty (db.rs `run_migrations`). -/
def DbState.empty : DbState :=
  { next_id := 0, signals := [], flags := [], sync_jobs := [], file_state := [],
    node_mapping := [], processing_queue := [] }

/-- db.rs `Db::send_signal`: INSERT INTO signals. -/
def send_signal (s : String) (st : DbState) : DbState :=
  { st with signals := st.signals ++ [s] }

/-- db.rs `Db::receive_signals`: SELECT signal FROM signals ORDER BY
created_at, then DELETE FROM signals.  Returns the rows in insertion order
and the state with the table cleared. -/
def receive_signals (st : DbState) : DbState × List String :=
  ({ st with signals := [] }, st.signals)

/-- db.rs `Db::set_flag`: INSERT OR REPLACE INTO flags. -/
def set_flag (flag : String) (st : DbState) : DbState :=
  { st with flags := st.flags.filter (fun f => f != flag) ++ [flag] }

/-- db.rs `Db::get_flag`: COUNT rows with the given name. -/
def get_flag (flag : String) (st : DbState) : Bool :=
  st.flags.contains flag

/-- db.rs `Db::clear_flag`: DELETE FROM flags WHERE name matches. -/
def clear_flag (flag : String) (st : DbState) : DbState :=
  { st with flags := st.flags.filter (fun f => f != flag) }

/-- db.rs `Db::enqueue_job`: INSERT a PENDING row with the event's
attributes; `retry_at`, `last_error` default NULL, `n_retries` defaults 0,
`created_at` defaults to the current time.  Returns the inserted rowid. -/
def enqueue_job (ev : SyncEvent) (now : Int) (st : DbState) : DbState × Int :=
  let job : SyncJob :=
    { id := st.next_id
      event_type := ev.event_type
      local_path := ev.local_path
      remote_path := ev.remote_path
      status := SyncJobStatus.pending
      retry_at := none
      n_retries := 0
      last_error := none
      change_token := ev.change_token
      old_local_path := ev.old_local_path
      old_remote_path := ev.old_remote_path
      created_at := now }
  ({ st with sync_jobs := st.sync_jobs ++ [job], next_id := st.next_id + 1 }, st.next_id)

/-- The WHERE clause of db.rs `Db::get_pending_jobs`:
status = PENDING OR (status = PROCESSING AND retry_at < now).  A NULL
`retry_at` makes the SQL comparison NULL, hence not selected. -/
def claimable (now : Int) (j : SyncJob) : Bool :=
  decide (j.status = SyncJobStatus.pending) ||
    (decide (j.status = SyncJobStatus.processing) &&
      match j.retry_at with
      | some r => decide (r < now)
      | none => false)

/-- Comparator for ORDER BY created_at ASC. -/
def jobLe (a b : SyncJob) : Bool := decide (a.created_at ≤ b.created_at)

/-- db.rs `Db::get_pending_jobs`: SELECT rows matching the claim predicate,
ORDER BY created_at ASC, LIMIT `limit`.  A plain SELECT: the state comes
back unchanged. -/
def get_pending_jobs (limit : Nat) (now : Int) (st : DbState) :
    DbState × List SyncJob :=
  (st, (List.mergeSort (st.sync_jobs.filter (claimable now)) jobLe).take limit)

/-- db.rs `Db::update_job_status`: UPDATE sync_jobs SET status, last_error
WHERE id matches. -/
def update_job_status (id : Int) (status : SyncJobStatus) (err : Option String)
    (st : DbState) : DbState :=
  { st with sync_jobs := st.sync_jobs.map (fun r =>
      if r.id = id then { r with status := status, last_error := err } else r) }

/-- db.rs `Db::mark_job_processing`: UPDATE sync_jobs SET
status = PROCESSING, retry_at = NULL WHERE id matches. -/
def mark_job_processing (id : Int) (st : DbState) : DbState :=
  { st with sync_jobs := st.sync_jobs.map (fun r =>
      if r.id = id then
        { r with status := SyncJobStatus.processing, retry_at := none }
      else r) }

/-- db.rs `Db::increment_job_retry`: UPDATE sync_jobs SET
n_retries = n_retries + 1, retry_at = given WHERE id matches. -/
def increment_job_retry (id : Int) (retry_at : Int) (st : DbState) : DbState :=
  { st with sync_jobs := st.sync_jobs.map (fun r =>
      if r.id = id then
        { r with n_retries := r.n_retries + 1, retry_at := some retry_at }
      else r) }

/-- db.rs `Db::delete_completed_jobs`: DELETE FROM sync_jobs WHERE
status = SYNCED AND created_at older than the cutoff.  Returns the number of
rows affected. -/
def delete_completed_jobs (older_than : Int) (now : Int) (st : DbState) :
    DbState × Nat :=
  let keep := st.sync_jobs.filter (fun j =>
    !(decide (j.status = SyncJobStatus.synced) && decide (j.created_at < now - older_than)))
  ({ st with sync_jobs := keep }, st.sync_jobs.length - keep.length)

/-- db.rs `Db::get_job_count`: COUNT rows with the given status. -/
def get_job_count (status : SyncJobStatus) (st : DbState) : Nat :=
  (st.sync_jobs.filter (fun j => decide (j.status = status))).length

/-- db.rs `Db::get_file_state`: SELECT the row keyed by local_path. -/
def get_file_state (local_path : String) (st : DbState) : Option FileState :=
  st.file_state.find? (fun f => f.local_path == local_path)

/-- db.rs `Db::update_file_state`: INSERT OR REPLACE INTO file_state. -/
def update_file_state (local_path change_token : String) (now : Int)
    (st : DbState) : DbState :=
  { st with file_state :=
      st.file_state.filter (fun f => f.local_path != local_path) ++
        [{ local_path := local_path, change_token := change_token, updated_at := now }] }

/-- db.rs `Db::delete_file_state`: DELETE FROM file_state WHERE local_path
matches. -/
def delete_file_state (local_path : String) (st : DbState) : DbState :=
  { st with file_state := st.file_state.filter (fun f => f.local_path != local_path) }

/-- db.rs `Db::get_node_mapping`: SELECT the row keyed by
(local_path, remote_path). -/
def get_node_mapping (local_path remote_path : String) (st : DbState) :
    Option NodeMapping :=
  st.node_mapping.find? (fun m =>
    m.local_path == local_path && m.remote_path == remote_path)

/-- db.rs `Db::update_node_mapping`: INSERT OR REPLACE INTO node_mapping. -/
def update_node_mapping (m : NodeMapping) (st : DbState) : DbState :=
  { st with node_mapping :=
      st.node_mapping.filter (fun x =>
        !(x.local_path == m.local_path && x.remote_path == m.remote_path)) ++ [m] }

/-- db.rs `Db::delete_node_mapping`: DELETE FROM node_mapping WHERE both key
columns match. -/
def delete_node_mapping (local_path remote_path : String) (st : DbState) : DbState :=
  { st with node_mapping :=
      st.node_mapping.filter (fun x =>
        !(x.local_path == local_path && x.remote_path == remote_path)) }

/-- db.rs `Db::add_to_processing_queue`: INSERT OR REPLACE keyed by
local_path. -/
def add_to_processing_queue (local_path : String) (st : DbState) : DbState :=
  { st with processing_queue :=
      st.processing_queue.filter (fun p => p != local_path) ++ [local_path] }

/-- db.rs `Db::remove_from_processing_queue`. -/
def remove_from_processing_queue (local_path : String) (st : DbState) : DbState :=
  { st with processing_queue := st.processing_queue.filter (fun p => p != local_path) }

/-- Split a character list at slashes (helper for `splitPath`). -/
def splitSlashAux : List Char → List Char → List String
  | [], acc => [String.mk acc.reverse]
  | c :: cs, acc =>
    if c = '/' then String.mk acc.reverse :: splitSlashAux cs []
    else splitSlashAux cs (c :: acc)

/-- Components of a slash-separated path, empty components dropped. -/
def splitPath (p : String) : List String :=
  (splitSlashAux p.toList []).filter (fun c => c != "")

/-- Whether a path is absolute (starts with a slash). -/
def startsWithSlash (p : String) : Bool :=
  match p.toList with
  | c :: _ => c == '/'
  | [] => false

/-- Join path components with slashes. -/
def joinSlash : List String → String
  | [] => ""
  | [c] => c
  | c :: c2 :: rest => c ++ "/" ++ joinSlash (c2 :: rest)

/-- Rust std `Path::parent` for POSIX-style paths without `.`/`..`
components: strip the final component; the parent of a one-component
absolute path is the root, of a one-component relative path the empty
string; the root and the empty path have no parent. -/
def rustPathParent (p : String) : Option String :=
  if p = "" then none
  else
    match splitPath p with
    | [] => none
    | [_] => if startsWithSlash p then some "/" else some ""
    | c1 :: c2 :: rest =>
      if startsWithSlash p then
        some ("/" ++ joinSlash (c1 :: c2 :: rest).dropLast)
      else
        some (joinSlash (c1 :: c2 :: rest).dropLast)

/-- Rust std `Path::file_name`: the final component, unless it is a
relative-direction component or the path has no components. -/
def rustPathFileName (p : String) : Option String :=
  match (splitPath p).getLast? with
  | none => none
  | some c => if c = ".." then none else if c = "." then none else some c

/-- proton.rs `PathUtils::parent`. -/
def PathUtils.parent (p : String) : Option String :=
  if p = "/" then none else rustPathParent p

/-- proton.rs `PathUtils::filename`: file_name, falling back to the whole
path. -/
def PathUtils.filename (p : String) : String :=
  (rustPathFileName p).getD p

/-- Rust `str::trim_end_matches` for a single repeated character. -/
def trimEndChar (ch : Char) (s : String) : String :=
  String.mk ((s.toList.reverse.dropWhile (fun c => c == ch)).reverse)

/-- Rust `str::trim_start_matches` for a single repeated character. -/
def trimStartChar (ch : Char) (s : String) : String :=
  String.mk (s.toList.dropWhile (fun c => c == ch))

/-- proton.rs `PathUtils::join`. -/
def PathUtils.join (base childName : String) : String :=
  let b := trimEndChar '/' base
  let n := trimStartChar '/' childName
  if b = "" then "/" ++ n else b ++ "/" ++ n

/-- proton.rs `ProtonClient::get_root_id`: the source returns the constant
string root, never consulting the remote share. -/
def get_root_id : String := "root"

/-- A call the processor makes against the remote client (proton.rs).  File
bytes and MIME type of create_file are passed through unmodified and elided
here. -/
inductive RemoteCall
  | createFileCall (parent_id childName : String)
  | createFolderCall (parent_id childName : String)
  | deleteNodeCall (uid : String)
  | deleteNodePermanentCall (uid : String)
deriving DecidableEq, Repr

/-- Oracle for the external collaborators of the processor: the local
filesystem and the remote HTTP client's responses. -/
structure RemoteEnv where
  fileExists : String → Bool
  create_file_resp : String → String → CreateResult
  create_folder_resp : String → String → CreateResult
  delete_node_resp : String → Except SyncError Unit
  delete_node_permanent_resp : String → Except SyncError Unit

/-- processor.rs `JobProcessor::get_or_create_parent_node`: the source
ignores its argument and returns the client's root id. -/
def get_or_create_parent_node (_remote_path : String) : String :=
  get_root_id

/-- The retry delay of processor.rs `process_job`:
60 * 2 ^ n_retries seconds. -/
def retry_delay_secs (n : Nat) : Int :=
  60 * 2 ^ n

/-- processor.rs `JobProcessor::process_create_file`: check local existence,
resolve the parent node, call create_file, store the node mapping when a
node uid is returned. -/
def process_create_file (env : RemoteEnv) (now : Int) (j : SyncJob)
    (st : DbState) : DbState × List RemoteCall × Except SyncError Unit :=
  if env.fileExists j.local_path then
    match PathUtils.parent j.remote_path with
    | none => (st, [], Except.error (SyncError.invalidPath "No parent directory"))
    | some parent_path =>
      let parent_id := get_or_create_parent_node parent_path
      let file_name := PathUtils.filename j.remote_path
      let result := env.create_file_resp parent_id file_name
      if result.success then
        match result.node_uid with
        | some node_uid =>
          (update_node_mapping
            { local_path := j.local_path, remote_path := j.remote_path,
              node_uid := node_uid, parent_node_uid := parent_id,
              is_directory := false, updated_at := now } st,
           [RemoteCall.createFileCall parent_id file_name], Except.ok ())
        | none => (st, [RemoteCall.createFileCall parent_id file_name], Except.ok ())
      else
        (st, [RemoteCall.createFileCall parent_id file_name],
         Except.error (SyncError.sync (result.error.getD "Unknown error")))
  else
    (st, [], Except.error (SyncError.fileNotFound j.local_path))

/-- processor.rs `JobProcessor::process_create_dir`: like create_file but no
local-existence check, create_folder, and is_directory true. -/
def process_create_dir (env : RemoteEnv) (now : Int) (j : SyncJob)
    (st : DbState) : DbState × List RemoteCall × Except SyncError Unit :=
  match PathUtils.parent j.remote_path with
  | none => (st, [], Except.error (SyncError.invalidPath "No parent directory"))
  | some parent_path =>
    let parent_id := get_or_create_parent_node parent_path
    let folder_name := PathUtils.filename j.remote_path
    let result := env.create_folder_resp parent_id folder_name
    if result.success then
      match result.node_uid with
      | some node_uid =>
        (update_node_mapping
          { local_path := j.local_path, remote_path := j.remote_path,
            node_uid := node_uid, parent_node_uid := parent_id,
            is_directory := true, updated_at := now } st,
         [RemoteCall.createFolderCall parent_id folder_name], Except.ok ())
      | none => (st, [RemoteCall.createFolderCall parent_id folder_name], Except.ok ())
    else
      (st, [RemoteCall.createFolderCall parent_id folder_name],
       Except.error (SyncError.sync (result.error.getD "Unknown error")))

/-- processor.rs `JobProcessor::process_update`: with no existing mapping,
fall through to create; otherwise delete the mapped node, then create a new
file under the mapped parent.  The source records no mapping update on this
path. -/
def process_update (env : RemoteEnv) (now : Int) (j : SyncJob)
    (st : DbState) : DbState × List RemoteCall × Except SyncError Unit :=
  if env.fileExists j.local_path then
    match get_node_mapping j.local_path j.remote_path st with
    | none => process_create_file env now j st
    | some existing =>
      match env.delete_node_resp existing.node_uid with
      | Except.error e =>
        (st, [RemoteCall.deleteNodeCall existing.node_uid], Except.error e)
      | Except.ok _ =>
        let parent_id := existing.parent_node_uid
        let file_name := PathUtils.filename j.remote_path
        let result := env.create_file_resp parent_id file_name
        if result.success then
          (st, [RemoteCall.deleteNodeCall existing.node_uid,
                RemoteCall.createFileCall parent_id file_name], Except.ok ())
        else
          (st, [RemoteCall.deleteNodeCall existing.node_uid,
                RemoteCall.createFileCall parent_id file_name],
           Except.error (SyncError.sync (result.error.getD "Unknown error")))
  else
    (st, [], Except.error (SyncError.fileNotFound j.local_path))

/-- processor.rs `JobProcessor::process_delete`: with an existing mapping,
delete remotely according to the configured behavior and drop the mapping;
with no mapping, succeed. -/
def process_delete (beh : RemoteDeleteBehavior) (env : RemoteEnv) (j : SyncJob)
    (st : DbState) : DbState × List RemoteCall × Except SyncError Unit :=
  match get_node_mapping j.local_path j.remote_path st with
  | none => (st, [], Except.ok ())
  | some existing =>
    match beh with
    | RemoteDeleteBehavior.trash =>
      match env.delete_node_resp existing.node_uid with
      | Except.error e =>
        (st, [RemoteCall.deleteNodeCall existing.node_uid], Except.error e)
      | Except.ok _ =>
        (delete_node_mapping j.local_path j.remote_path st,
         [RemoteCall.deleteNodeCall existing.node_uid], Except.ok ())
    | RemoteDeleteBehavior.permanent =>
      match env.delete_node_permanent_resp existing.node_uid with
      | Except.error e =>
        (st, [RemoteCall.deleteNodePermanentCall existing.node_uid], Except.error e)
      | Except.ok _ =>
        (delete_node_mapping j.local_path j.remote_path st,
         [RemoteCall.deleteNodePermanentCall existing.node_uid], Except.ok ())

/-- The dispatch on event_type inside processor.rs `process_job`. -/
def run_handler (beh : RemoteDeleteBehavior) (env : RemoteEnv) (now : Int)
    (j : SyncJob) (st : DbState) :
    DbState × List RemoteCall × Except SyncError Unit :=
  match j.event_type with
  | SyncEventType.createFile => process_create_file env now j st
  | SyncEventType.createDir => process_create_dir env now j st
  | SyncEventType.update => process_update env now j st
  | SyncEventType.delete => process_delete beh env j st

/-- processor.rs `JobProcessor::process_job`: mark processing, take the
processing-queue lease, dispatch, release the lease, then either mark synced
and maintain file_state, or bump the retry with exponential backoff, or mark
blocked with the error message.  The semaphore only bounds concurrency and
has no sequential effect. -/
def process_job (beh : RemoteDeleteBehavior) (env : RemoteEnv) (now : Int)
    (j : SyncJob) (st : DbState) :
    DbState × List RemoteCall × Except SyncError Unit :=
  let st1 := mark_job_processing j.id st
  let st2 := add_to_processing_queue j.local_path st1
  let h := run_handler beh env now j st2
  let st3 := remove_from_processing_queue j.local_path h.1
  match h.2.2 with
  | Except.ok _ =>
    let st4 := update_job_status j.id SyncJobStatus.synced none st3
    let st5 :=
      if j.event_type ≠ SyncEventType.delete then
        match j.change_token with
        | some token => update_file_state j.local_path token now st4
        | none => st4
      else
        delete_file_state j.local_path st4
    (st5, h.2.1, Except.ok ())
  | Except.error e =>
    if j.n_retries < 5 then
      (increment_job_retry j.id (now + retry_delay_secs j.n_retries) st3,
       h.2.1, Except.error e)
    else
      (update_job_status j.id SyncJobStatus.blocked (some (errMessage e)) st3,
       h.2.1, Except.error e)

/-- sync.rs `SyncEngine::start_processor_task`, one tick of the loop body:
skip unless Running, fetch up to 10 claimable jobs, process each in order
(errors are logged and do not stop the loop).  The body touches no signal
row and applies no state transition. -/
def processor_tick (state : SyncState) (beh : RemoteDeleteBehavior)
    (env : RemoteEnv) (now : Int) (st : DbState) : DbState :=
  if state ≠ SyncState.running then st
  else
    let jobs := (get_pending_jobs 10 now st).2
    jobs.foldl (fun acc j => (process_job beh env now j acc).1) st

/-- The configuration fields relevant to the engine model (types.rs
`Config`). -/
structure ConfigModel where
  sync_concurrency : Nat
  remote_delete_behavior : RemoteDeleteBehavior
deriving DecidableEq, Repr

/-- The engine as far as delete behavior is concerned: sync.rs
`SyncEngine::new` copies `remote_delete_behavior` out of the configuration
into `JobProcessor::new`, where it is stored in the processor. -/
structure EngineModel where
  processor_behavior : RemoteDeleteBehavior
  config : ConfigModel
deriving DecidableEq, Repr

/-- sync.rs `SyncEngine::new` plus processor.rs `JobProcessor::new`. -/
def sync_engine_new (cfg : ConfigModel) : EngineModel :=
  { processor_behavior := cfg.remote_delete_behavior, config := cfg }

/-- sync.rs `SyncEngine::start_config_reload_task`, one tick: when
config.rs `check_for_updates` observes a newer file mtime it replaces the
in-memory configuration; the task body then only logs the new concurrency —
the processor (and its stored delete behavior) is left untouched. -/
def config_reload_tick (file_changed : Bool) (new_cfg : ConfigModel)
    (e : EngineModel) : EngineModel :=
  if file_changed then { e with config := new_cfg } else e

/-- cli/pause.rs: send the pause signal, then set the paused flag. -/
def cli_pause (st : DbState) : DbState :=
  set_flag "paused" (send_signal "pause" st)

/-- cli/stop.rs: send the stop signal, then clear the running flag. -/
def cli_stop (st : DbState) : DbState :=
  clear_flag "running" (send_signal "stop" st)

/-- cli/resume.rs: send the resume signal, then clear the paused flag. -/
def cli_resume (st : DbState) : DbState :=
  clear_flag "paused" (send_signal "resume" st)

/-- A filesystem entry yielded by the recursive walk of watcher.rs
`FileScanner::scan_directory`.  The walk yields paths under the scanned
directory, so entries carry their path relative to it; `token` is the
change token the scanner computes from the entry's metadata. -/
structure FsEntry where
  rel : String
  isDir : Bool
  token : String
deriving DecidableEq, Repr

/-- watcher.rs `FileScanner::scan_directory`: walk the entries in order,
prune excluded paths, skip directories, and for each file compare the
current change token with the stored FileState row; enqueue an UPDATE job
when the row is absent or differs.  Returns the new state and the number of
jobs enqueued.  Exclusion matching (the glob crate) is abstracted as a
predicate on the entry path. -/
def scan_directory (fs : List FsEntry) (directory remote_root : String)
    (excluded : String → Bool) (now : Int) (st : DbState) : DbState × Nat :=
  match fs with
  | [] => (st, 0)
  | entry :: rest =>
    let local_path := directory ++ "/" ++ entry.rel
    if excluded local_path then
      scan_directory rest directory remote_root excluded now st
    else if entry.isDir then
      scan_directory rest directory remote_root excluded now st
    else
      let remote_path := PathUtils.join remote_root entry.rel
      let enqueueHere : Bool :=
        match get_file_state local_path st with
        | some stored => stored.change_token != entry.token
        | none => true
      if enqueueHere then
        let ev : SyncEvent :=
          { event_type := SyncEventType.update, local_path := local_path,
            remote_path := remote_path, change_token := some entry.token,
            old_local_path := none, old_remote_path := none }
        let st1 := (enqueue_job ev now st).1
        let r := scan_directory rest directory remote_root excluded now st1
        (r.1, r.2 + 1)
      else
        scan_directory rest directory remote_root excluded now st

lemma jobLe_trans (a b c : SyncJob) (h1 : jobLe a b = true) (h2 : jobLe b c = true) :
    jobLe a c = true := by
  simp only [jobLe, decide_eq_true_eq] at *
  omega

lemma jobLe_total (a b : SyncJob) : (jobLe a b || jobLe b a) = true := by
  simp only [jobLe, Bool.or_eq_true, decide_eq_true_eq]
  omega

lemma claimable_not_terminal (now : Int) (j : SyncJob) (h : claimable now j = true) :
    j.status ≠ SyncJobStatus.synced ∧ j.status ≠ SyncJobStatus.blocked := by
  unfold claimable at h
  cases hs : j.status <;> simp [hs] at h ⊢

/-- C1. For every limit L, `get_pending_jobs` returns at most L job rows,
ordered by created_at ascending, containing exactly the jobs whose status is
PENDING or whose status is PROCESSING with a non-null `retry_at` earlier
than the current time (all rows when at most L match); it never returns
SYNCED or BLOCKED jobs, and it does not mutate any job row. -/
theorem get_pending_jobs_spec (limit : Nat) (now : Int) (st : DbState) :
    (get_pending_jobs limit now st).1 = st ∧
    (get_pending_jobs limit now st).2.length ≤ limit ∧
    (get_pending_jobs limit now st).2.Pairwise (fun a b => a.created_at ≤ b.created_at) ∧
    (∀ j ∈ (get_pending_jobs limit now st).2,
        claimable now j = true ∧ j ∈ st.sync_jobs ∧
        j.status ≠ SyncJobStatus.synced ∧ j.status ≠ SyncJobStatus.blocked) ∧
    ((st.sync_jobs.filter (claimable now)).length ≤ limit →
        ∀ j ∈ st.sync_jobs, claimable now j = true →
          j ∈ (get_pending_jobs limit now st).2) := by
  refine ⟨rfl, ?_, ?_, ?_, ?_⟩
  · simp only [get_pending_jobs]
    exact List.length_take_le _ _
  · simp only [get_pending_jobs]
    have hs := @List.sorted_mergeSort SyncJob jobLe jobLe_trans jobLe_total
      (st.sync_jobs.filter (claimable now))
    have hsub : List.Sublist
        ((List.mergeSort (st.sync_jobs.filter (claimable now)) jobLe).take limit)
        (List.mergeSort (st.sync_jobs.filter (claimable now)) jobLe) :=
      List.take_sublist _ _
    have := hs.sublist hsub
    exact this.imp (fun h => by simpa [jobLe] using h)
  · intro j hj
    simp only [get_pending_jobs] at hj
    have hj2 : j ∈ List.mergeSort (st.sync_jobs.filter (claimable now)) jobLe :=
      List.mem_of_mem_take hj
    rw [List.mem_mergeSort] at hj2
    have hj3 := List.mem_filter.mp hj2
    exact ⟨hj3.2, hj3.1, claimable_not_terminal now j hj3.2⟩
  · intro hlen j hj hcl
    simp only [get_pending_jobs]
    have hmem : j ∈ List.mergeSort (st.sync_jobs.filter (claimable now)) jobLe := by
      rw [List.mem_mergeSort]
      exact List.mem_filter.mpr ⟨hj, hcl⟩
    have hfull : (List.mergeSort (st.sync_jobs.filter (claimable now)) jobLe).take limit =
        List.mergeSort (st.sync_jobs.filter (claimable now)) jobLe := by
      apply List.take_of_length_le
      rw [List.length_mergeSort]
      exact hlen
    rw [hfull]
    exact hmem

/-- A pending job used by concrete witnesses. -/
def jW1 : SyncJob :=
  { id := 0, event_type := SyncEventType.createFile, local_path := "/a/x.txt",
    remote_path := "/r/x.txt", status := SyncJobStatus.pending, retry_at := none,
    n_retries := 0, last_error := none, change_token := some "1700000000:3",
    old_local_path := none, old_remote_path := none, created_at := 5 }

/-- A synced job used by concrete witnesses. -/
def jW2 : SyncJob :=
  { jW1 with id := 1, status := SyncJobStatus.synced, created_at := 3 }

/-- A two-job database used by concrete witnesses. -/
def stW : DbState :=
  { DbState.empty with sync_jobs := [jW1, jW2], next_id := 2 }

theorem get_pending_jobs_spec_witness :
    (get_pending_jobs 10 100 stW).1 = stW ∧ jW1 ∈ (get_pending_jobs 10 100 stW).2 :=
  ⟨(get_pending_jobs_spec 10 100 stW).1,
   (get_pending_jobs_spec 10 100 stW).2.2.2.2 (by decide) jW1 (by decide) (by decide)⟩

lemma run_handler_frame (beh : RemoteDeleteBehavior) (env : RemoteEnv) (now : Int)
    (j : SyncJob) (st : DbState) :
    (run_handler beh env now j st).1.sync_jobs = st.sync_jobs ∧
    (run_handler beh env now j st).1.next_id = st.next_id ∧
    (run_handler beh env now j st).1.signals = st.signals ∧
    (run_handler beh env now j st).1.file_state = st.file_state := by
  unfold run_handler
  cases j.event_type <;>
    simp only [process_create_file, process_create_dir, process_update, process_delete] <;>
    (repeat' split) <;>
    simp [update_node_mapping, delete_node_mapping]

lemma process_job_snd (beh : RemoteDeleteBehavior) (env : RemoteEnv) (now : Int)
    (j : SyncJob) (st : DbState) :
    (process_job beh env now j st).2.2 =
      (run_handler beh env now j
        (add_to_processing_queue j.local_path (mark_job_processing j.id st))).2.2 := by
  rcases hh : run_handler beh env now j
      (add_to_processing_queue j.local_path (mark_job_processing j.id st)) with ⟨s3, tr, res⟩
  simp only [process_job, hh]
  cases res with
  | ok u => cases u; simp
  | error e => by_cases hn : j.n_retries < 5 <;> simp [hn]

lemma process_job_trace (beh : RemoteDeleteBehavior) (env : RemoteEnv) (now : Int)
    (j : SyncJob) (st : DbState) :
    (process_job beh env now j st).2.1 =
      (run_handler beh env now j
        (add_to_processing_queue j.local_path (mark_job_processing j.id st))).2.1 := by
  rcases hh : run_handler beh env now j
      (add_to_processing_queue j.local_path (mark_job_processing j.id st)) with ⟨s3, tr, res⟩
  simp only [process_job, hh]
  cases res with
  | ok u => cases u; simp
  | error e => by_cases hn : j.n_retries < 5 <;> simp [hn]

lemma process_job_signals (beh : RemoteDeleteBehavior) (env : RemoteEnv) (now : Int)
    (j : SyncJob) (st : DbState) :
    (process_job beh env now j st).1.signals = st.signals := by
  rcases hh : run_handler beh env now j
      (add_to_processing_queue j.local_path (mark_job_processing j.id st)) with ⟨s3, tr, res⟩
  have hsig : s3.signals = st.signals := by
    have h := (run_handler_frame beh env now j
      (add_to_processing_queue j.local_path (mark_job_processing j.id st))).2.2.1
    rw [hh] at h
    exact h
  simp only [process_job, hh]
  cases res with
  | ok u =>
    cases u
    by_cases hev : j.event_type = SyncEventType.delete <;>
      cases j.change_token <;>
        simp [hev, update_file_state, delete_file_state, update_job_status,
          remove_from_processing_queue, hsig]
  | error e =>
    by_cases hn : j.n_retries < 5 <;>
      simp [hn, increment_job_retry, update_job_status, remove_from_processing_queue, hsig]

lemma process_job_jobs_ok (beh : RemoteDeleteBehavior) (env : RemoteEnv) (now : Int)
    (j : SyncJob) (st : DbState)
    (h : (process_job beh env now j st).2.2 = Except.ok ()) :
    (process_job beh env now j st).1.sync_jobs =
      st.sync_jobs.map (fun r =>
        if r.id = j.id then
          { r with status := SyncJobStatus.synced, retry_at := none, last_error := none }
        else r) := by
  rcases hh : run_handler beh env now j
      (add_to_processing_queue j.local_path (mark_job_processing j.id st)) with ⟨s3, tr, res⟩
  have hjobs : s3.sync_jobs =
      (mark_job_processing j.id st).sync_jobs := by
    have hf := (run_handler_frame beh env now j
      (add_to_processing_queue j.local_path (mark_job_processing j.id st))).1
    rw [hh] at hf
    exact hf
  have hres : res = Except.ok () := by
    have hs := process_job_snd beh env now j st
    rw [hh] at hs
    rw [h] at hs
    exact hs.symm
  subst hres
  simp only [process_job, hh]
  have hcomp : ∀ l : List SyncJob,
      (l.map (fun r =>
        if r.id = j.id then
          { r with status := SyncJobStatus.processing, retry_at := none }
        else r)).map (fun r =>
        if r.id = j.id then
          { r with status := SyncJobStatus.synced, last_error := none }
        else r) =
      l.map (fun r =>
        if r.id = j.id then
          { r with status := SyncJobStatus.synced, retry_at := none, last_error := none }
        else r) := by
    intro l
    rw [List.map_map]
    apply List.map_congr_left
    intro r _
    by_cases hr : r.id = j.id <;> simp [Function.comp, hr]
  by_cases hev : j.event_type = SyncEventType.delete <;>
    cases j.change_token <;>
      simp [hev, update_file_state, delete_file_state, update_job_status,
        remove_from_processing_queue, mark_job_processing, hjobs, hcomp]

lemma process_job_jobs_retry (beh : RemoteDeleteBehavior) (env : RemoteEnv) (now : Int)
    (j : SyncJob) (st : DbState) (e : SyncError)
    (h : (process_job beh env now j st).2.2 = Except.error e)
    (hn : j.n_retries < 5) :
    (process_job beh env now j st).1.sync_jobs =
      st.sync_jobs.map (fun r =>
        if r.id = j.id then
          { r with
            status := SyncJobStatus.processing
            n_retries := r.n_retries + 1
            retry_at := some (now + retry_delay_secs j.n_retries) }
        else r) := by
  rcases hh : run_handler beh env now j
      (add_to_processing_queue j.local_path (mark_job_processing j.id st)) with ⟨s3, tr, res⟩
  have hjobs : s3.sync_jobs = (mark_job_processing j.id st).sync_jobs := by
    have hf := (run_handler_frame beh env now j
      (add_to_processing_queue j.local_path (mark_job_processing j.id st))).1
    rw [hh] at hf
    exact hf
  have hres : res = Except.error e := by
    have hs := process_job_snd beh env now j st
    rw [hh] at hs
    rw [h] at hs
    exact hs.symm
  subst hres
  simp only [process_job, hh, hn, if_true]
  simp only [increment_job_retry, remove_from_processing_queue, mark_job_processing, hjobs]
  rw [List.map_map]
  apply List.map_congr_left
  intro r _
  by_cases hr : r.id = j.id <;> simp [Function.comp, hr]

lemma process_job_jobs_blocked (beh : RemoteDeleteBehavior) (env : RemoteEnv) (now : Int)
    (j : SyncJob) (st : DbState) (e : SyncError)
    (h : (process_job beh env now j st).2.2 = Except.error e)
    (hn : ¬ j.n_retries < 5) :
    (process_job beh env now j st).1.sync_jobs =
      st.sync_jobs.map (fun r =>
        if r.id = j.id then
          { r with
            status := SyncJobStatus.blocked
            retry_at := none
            last_error := some (errMessage e) }
        else r) := by
  rcases hh : run_handler beh env now j
      (add_to_processing_queue j.local_path (mark_job_processing j.id st)) with ⟨s3, tr, res⟩
  have hjobs : s3.sync_jobs = (mark_job_processing j.id st).sync_jobs := by
    have hf := (run_handler_frame beh env now j
      (add_to_processing_queue j.local_path (mark_job_processing j.id st))).1
    rw [hh] at hf
    exact hf
  have hres : res = Except.error e := by
    have hs := process_job_snd beh env now j st
    rw [hh] at hs
    rw [h] at hs
    exact hs.symm
  subst hres
  simp only [process_job, hh, hn, if_false]
  simp only [update_job_status, remove_from_processing_queue, mark_job_processing, hjobs]
  rw [List.map_map]
  apply List.map_congr_left
  intro r _
  by_cases hr : r.id = j.id <;> simp [Function.comp, hr]

lemma process_job_next_id (beh : RemoteDeleteBehavior) (env : RemoteEnv) (now : Int)
    (j : SyncJob) (st : DbState) :
    (process_job beh env now j st).1.next_id = st.next_id := by
  rcases hh : run_handler beh env now j
      (add_to_processing_queue j.local_path (mark_job_processing j.id st)) with ⟨s3, tr, res⟩
  have hid : s3.next_id = st.next_id := by
    have h := (run_handler_frame beh env now j
      (add_to_processing_queue j.local_path (mark_job_processing j.id st))).2.1
    rw [hh] at h
    exact h
  simp only [process_job, hh]
  cases res with
  | ok u =>
    cases u
    by_cases hev : j.event_type = SyncEventType.delete <;>
      cases j.change_token <;>
        simp [hev, update_file_state, delete_file_state, update_job_status,
          remove_from_processing_queue, hid]
  | error e =>
    by_cases hn : j.n_retries < 5 <;>
      simp [hn, increment_job_retry, update_job_status, remove_from_processing_queue, hid]

/-- C2.  For every job J whose handler fails while J.n_retries = n < 5,
process_job increments n_retries to n + 1, sets retry_at to the current
time plus 60 * 2 ^ n seconds (so the per-failure delays are 60, 120, 240,
480, 960 seconds), and leaves the job's status at PROCESSING. -/
theorem process_job_retry_backoff (beh : RemoteDeleteBehavior) (env : RemoteEnv)
    (now : Int) (j : SyncJob) (st : DbState) (e : SyncError)
    (hj : j ∈ st.sync_jobs)
    (huniq : ∀ r ∈ st.sync_jobs, r.id = j.id → r = j)
    (hfail : (process_job beh env now j st).2.2 = Except.error e)
    (hn : j.n_retries < 5) :
    (∀ r ∈ (process_job beh env now j st).1.sync_jobs, r.id = j.id →
        r.status = SyncJobStatus.processing ∧
        r.n_retries = j.n_retries + 1 ∧
        r.retry_at = some (now + retry_delay_secs j.n_retries)) ∧
    (retry_delay_secs 0 = 60 ∧ retry_delay_secs 1 = 120 ∧ retry_delay_secs 2 = 240 ∧
      retry_delay_secs 3 = 480 ∧ retry_delay_secs 4 = 960) := by
  constructor
  · intro r hr hrid
    rw [process_job_jobs_retry beh env now j st e hfail hn] at hr
    rcases List.mem_map.mp hr with ⟨r0, hr0, hmap⟩
    by_cases h0 : r0.id = j.id
    · have hr0j := huniq r0 hr0 h0
      subst hr0j
      rw [if_pos h0] at hmap
      subst hmap
      exact ⟨rfl, rfl, rfl⟩
    · rw [if_neg h0] at hmap
      subst hmap
      exact absurd hrid h0
  · exact ⟨by decide, by decide, by decide, by decide, by decide⟩

/-- A fully failing environment (the local file has vanished, the remote
rejects everything) used by concrete witnesses. -/
def envF : RemoteEnv :=
  { fileExists := fun _ => false,
    create_file_resp := fun _ _ => { success := false, node_uid := none, error := none },
    create_folder_resp := fun _ _ => { success := false, node_uid := none, error := none },
    delete_node_resp := fun _ => Except.error (SyncError.protonApi "down"),
    delete_node_permanent_resp := fun _ => Except.error (SyncError.protonApi "down") }

/-- The row jW1 becomes after one failed attempt at time 100. -/
def rW1 : SyncJob :=
  { jW1 with
    status := SyncJobStatus.processing
    n_retries := 1
    retry_at := some 160 }

theorem process_job_retry_backoff_witness :
    jW1.n_retries < 5 ∧
    rW1.status = SyncJobStatus.processing ∧
    rW1.n_retries = jW1.n_retries + 1 ∧
    rW1.retry_at = some (100 + retry_delay_secs jW1.n_retries) :=
  ⟨by decide,
   (process_job_retry_backoff RemoteDeleteBehavior.trash envF 100 jW1 stW
      (SyncError.fileNotFound "/a/x.txt") (by decide) (by decide) (by decide)
      (by decide)).1 rW1 (by decide) (by decide)⟩

lemma find_filter_append_file (l : List FileState) (lp tok : String) (t : Int) :
    List.find? (fun f => f.local_path == lp)
      (l.filter (fun f => f.local_path != lp) ++
        [{ local_path := lp, change_token := tok, updated_at := t }]) =
      some { local_path := lp, change_token := tok, updated_at := t } := by
  induction l with
  | nil => simp
  | cons f rest ih =>
    by_cases hf : f.local_path = lp
    · simp only [List.filter_cons]
      have hne : (f.local_path != lp) = false := by simp [hf]
      rw [hne]
      simp only [Bool.false_eq_true, if_false]
      exact ih
    · simp only [List.filter_cons]
      have hne : (f.local_path != lp) = true := by simp [hf]
      rw [hne]
      simp only [if_true, List.cons_append, List.find?_cons]
      have hb : (f.local_path == lp) = false := by simp [hf]
      rw [hb]
      exact ih

lemma get_file_state_update_self (lp tok : String) (t : Int) (s : DbState) :
    get_file_state lp (update_file_state lp tok t s) =
      some { local_path := lp, change_token := tok, updated_at := t } := by
  unfold get_file_state update_file_state
  exact find_filter_append_file s.file_state lp tok t

lemma get_file_state_delete_self (lp : String) (s : DbState) :
    get_file_state lp (delete_file_state lp s) = none := by
  unfold get_file_state delete_file_state
  rw [List.find?_eq_none]
  intro f hf
  have hmem := List.mem_filter.mp hf
  simp only [bne_iff_ne, ne_eq] at hmem
  simp [hmem.2]

/-- C4.  For every job J on local path P with change token T that completes
successfully: if J.event_type is not DELETE then afterwards the FileState
row for P carries change_token T, and if J.event_type is DELETE then
afterwards the FileState row for P is absent. -/
theorem process_job_success_file_state (beh : RemoteDeleteBehavior) (env : RemoteEnv)
    (now : Int) (j : SyncJob) (st : DbState)
    (hok : (process_job beh env now j st).2.2 = Except.ok ()) :
    (∀ tok, j.event_type ≠ SyncEventType.delete → j.change_token = some tok →
        (get_file_state j.local_path (process_job beh env now j st).1).map
          (fun f => f.change_token) = some tok) ∧
    (j.event_type = SyncEventType.delete →
        get_file_state j.local_path (process_job beh env now j st).1 = none) := by
  rcases hh : run_handler beh env now j
      (add_to_processing_queue j.local_path (mark_job_processing j.id st)) with ⟨s3, tr, res⟩
  have hres : res = Except.ok () := by
    have hs := process_job_snd beh env now j st
    rw [hh] at hs
    rw [hok] at hs
    exact hs.symm
  subst hres
  simp only [process_job, hh]
  constructor
  · intro tok hev htok
    rw [if_pos hev, htok]
    simp [get_file_state_update_self]
  · intro hev
    rw [if_neg (fun hne => hne hev)]
    exact get_file_state_delete_self _ _

/-- A fully succeeding environment used by concrete witnesses. -/
def envOk : RemoteEnv :=
  { fileExists := fun _ => true,
    create_file_resp := fun _ _ => { success := true, node_uid := some "N1", error := none },
    create_folder_resp := fun _ _ => { success := true, node_uid := some "N2", error := none },
    delete_node_resp := fun _ => Except.ok (),
    delete_node_permanent_resp := fun _ => Except.ok () }

theorem process_job_success_file_state_witness :
    (get_file_state "/a/x.txt"
        (process_job RemoteDeleteBehavior.trash envOk 100 jW1 stW).1).map
      (fun f => f.change_token) = some "1700000000:3" :=
  (process_job_success_file_state RemoteDeleteBehavior.trash envOk 100 jW1 stW
      (by decide)).1 "1700000000:3" (by decide) (by decide)

lemma process_create_file_trace (env : RemoteEnv) (now : Int) (j : SyncJob)
    (st : DbState) :
    (process_create_file env now j st).2.1 = [] ∨
    (process_create_file env now j st).2.1 =
      [RemoteCall.createFileCall get_root_id (PathUtils.filename j.remote_path)] := by
  unfold process_create_file get_or_create_parent_node
  cases hex : env.fileExists j.local_path
  · simp [hex]
  · cases hp : PathUtils.parent j.remote_path
    · simp [hex, hp]
    · cases hs : (env.create_file_resp get_root_id (PathUtils.filename j.remote_path)).success
      · simp [hex, hp, hs]
      · cases hnu : (env.create_file_resp get_root_id (PathUtils.filename j.remote_path)).node_uid <;>
          simp [hex, hp, hs, hnu]

lemma process_create_dir_trace (env : RemoteEnv) (now : Int) (j : SyncJob)
    (st : DbState) :
    (process_create_dir env now j st).2.1 = [] ∨
    (process_create_dir env now j st).2.1 =
      [RemoteCall.createFolderCall get_root_id (PathUtils.filename j.remote_path)] := by
  unfold process_create_dir get_or_create_parent_node
  cases hp : PathUtils.parent j.remote_path
  · simp [hp]
  · cases hs : (env.create_folder_resp get_root_id (PathUtils.filename j.remote_path)).success
    · simp [hp, hs]
    · cases hnu : (env.create_folder_resp get_root_id (PathUtils.filename j.remote_path)).node_uid <;>
        simp [hp, hs, hnu]

/-- C9.  For every CREATE_FILE, CREATE_DIR, or create-upgraded UPDATE job,
the parent node uid passed to the remote create_file/create_folder call
equals the account root id returned by get_root_id, regardless of the depth
of the job's remote_path (get_or_create_parent_node ignores its argument). -/
theorem create_parent_is_root (beh : RemoteDeleteBehavior) (env : RemoteEnv)
    (now : Int) (j : SyncJob) (st : DbState)
    (h : j.event_type = SyncEventType.createFile ∨
         j.event_type = SyncEventType.createDir ∨
         (j.event_type = SyncEventType.update ∧
           get_node_mapping j.local_path j.remote_path st = none)) :
    (∀ p, get_or_create_parent_node p = get_root_id) ∧
    ∀ c ∈ (run_handler beh env now j st).2.1, ∀ pid childName,
      (c = RemoteCall.createFileCall pid childName ∨
       c = RemoteCall.createFolderCall pid childName) → pid = get_root_id := by
  refine ⟨fun _ => rfl, ?_⟩
  have htr : (run_handler beh env now j st).2.1 = [] ∨
      (run_handler beh env now j st).2.1 =
        [RemoteCall.createFileCall get_root_id (PathUtils.filename j.remote_path)] ∨
      (run_handler beh env now j st).2.1 =
        [RemoteCall.createFolderCall get_root_id (PathUtils.filename j.remote_path)] := by
    rcases h with hev | hev | ⟨hev, hm⟩
    · simp only [run_handler, hev]
      rcases process_create_file_trace env now j st with ht | ht
      · exact Or.inl ht
      · exact Or.inr (Or.inl ht)
    · simp only [run_handler, hev]
      rcases process_create_dir_trace env now j st with ht | ht
      · exact Or.inl ht
      · exact Or.inr (Or.inr ht)
    · simp only [run_handler, hev]
      cases hex : env.fileExists j.local_path
      · simp [process_update, hex]
      · simp only [process_update, hex, if_true, hm]
        rcases process_create_file_trace env now j st with ht | ht
        · exact Or.inl ht
        · exact Or.inr (Or.inl ht)
  intro c hc pid childName hcall
  rcases htr with ht | ht | ht <;> rw [ht] at hc
  · exact absurd hc (List.not_mem_nil c)
  · rw [List.mem_singleton] at hc
    subst hc
    rcases hcall with h1 | h1
    · cases h1
      rfl
    · cases h1
  · rw [List.mem_singleton] at hc
    subst hc
    rcases hcall with h1 | h1
    · cases h1
    · cases h1
      rfl

theorem create_parent_is_root_witness : ("root" : String) = get_root_id :=
  (create_parent_is_root RemoteDeleteBehavior.trash envOk 100 jW1 stW
      (Or.inl (by decide))).2
    (RemoteCall.createFileCall "root" "x.txt") (by decide) "root" "x.txt"
    (Or.inl rfl)

lemma get_node_mapping_congr (lp rp : String) (a b : DbState)
    (h : a.node_mapping = b.node_mapping) :
    get_node_mapping lp rp a = get_node_mapping lp rp b := by
  unfold get_node_mapping
  rw [h]

/-- C10.  For every UPDATE job on (local_path, remote_path) with an existing
NodeMapping row m, a successful run of the UPDATE handler leaves the
node_mapping table unchanged: the row still holds the pre-update node_uid,
which names the remote node the handler just deleted, and the node created
by the delete-then-create sequence is never recorded in the mapping. -/
theorem update_success_mapping_unchanged (beh : RemoteDeleteBehavior)
    (env : RemoteEnv) (now : Int) (j : SyncJob) (st : DbState) (m : NodeMapping)
    (hev : j.event_type = SyncEventType.update)
    (hm : get_node_mapping j.local_path j.remote_path st = some m)
    (hok : (process_job beh env now j st).2.2 = Except.ok ()) :
    (process_job beh env now j st).1.node_mapping = st.node_mapping ∧
    get_node_mapping j.local_path j.remote_path (process_job beh env now j st).1 =
      some m ∧
    (process_job beh env now j st).2.1 =
      [RemoteCall.deleteNodeCall m.node_uid,
       RemoteCall.createFileCall m.parent_node_uid (PathUtils.filename j.remote_path)] := by
  have hmpre : get_node_mapping j.local_path j.remote_path
      (add_to_processing_queue j.local_path (mark_job_processing j.id st)) = some m := hm
  have hrr : (run_handler beh env now j
      (add_to_processing_queue j.local_path (mark_job_processing j.id st))).2.2 =
      Except.ok () := by
    rw [← process_job_snd]
    exact hok
  cases hex : env.fileExists j.local_path
  · exfalso
    simp [run_handler, hev, process_update, hex] at hrr
  · cases hdel : env.delete_node_resp m.node_uid with
    | error e =>
      exfalso
      simp [run_handler, hev, process_update, hex, hmpre, hdel] at hrr
    | ok u =>
      cases u
      cases hs2 : (env.create_file_resp m.parent_node_uid
          (PathUtils.filename j.remote_path)).success
      · exfalso
        simp [run_handler, hev, process_update, hex, hmpre, hdel, hs2] at hrr
      · have hrun : run_handler beh env now j
            (add_to_processing_queue j.local_path (mark_job_processing j.id st)) =
            (add_to_processing_queue j.local_path (mark_job_processing j.id st),
             [RemoteCall.deleteNodeCall m.node_uid,
              RemoteCall.createFileCall m.parent_node_uid (PathUtils.filename j.remote_path)],
             Except.ok ()) := by
          simp [run_handler, hev, process_update, hex, hmpre, hdel, hs2]
        have hnm : (process_job beh env now j st).1.node_mapping = st.node_mapping := by
          simp only [process_job, hrun]
          cases hct : j.change_token <;>
            simp [hev, hct, update_file_state, delete_file_state, update_job_status,
              remove_from_processing_queue, add_to_processing_queue, mark_job_processing]
        refine ⟨hnm, ?_, ?_⟩
        · rw [get_node_mapping_congr j.local_path j.remote_path _ st hnm]
          exact hm
        · simp only [process_job, hrun]

/-- A node mapping row used by concrete witnesses. -/
def mU : NodeMapping :=
  { local_path := "/a/x.txt", remote_path := "/r/x.txt", node_uid := "N0",
    parent_node_uid := "P0", is_directory := false, updated_at := 0 }

/-- An UPDATE job used by concrete witnesses. -/
def jU : SyncJob :=
  { jW1 with event_type := SyncEventType.update }

/-- A database with an existing node mapping, used by concrete witnesses. -/
def stU : DbState :=
  { stW with node_mapping := [mU] }

theorem update_success_mapping_unchanged_witness :
    (process_job RemoteDeleteBehavior.trash envOk 100 jU stU).1.node_mapping =
      stU.node_mapping :=
  (update_success_mapping_unchanged RemoteDeleteBehavior.trash envOk 100 jU stU mU
      (by decide) (by decide) (by decide)).1

/-- Row-level well-formedness: the retry counter is bounded and a SYNCED row
carries no retry deadline and no error. -/
def JobOK (j : SyncJob) : Prop :=
  j.n_retries ≤ 5 ∧
  (j.status = SyncJobStatus.synced → j.retry_at = none ∧ j.last_error = none)

/-- Well-formedness of a job table together with the AUTOINCREMENT counter:
every row is JobOK, row ids stay below the counter, and ids identify rows. -/
def JobsOK (jobs : List SyncJob) (next : Int) : Prop :=
  (∀ j ∈ jobs, JobOK j) ∧
  (∀ j ∈ jobs, j.id < next) ∧
  (∀ j ∈ jobs, ∀ k ∈ jobs, j.id = k.id → j = k)

/-- Database invariant carried through the processor's step relation. -/
def DbOK (st : DbState) : Prop :=
  JobsOK st.sync_jobs st.next_id

/-- The states the store can reach through the operations the daemon
performs on the job table: start from a fresh database, enqueue events
(watcher/scanner), process claimable jobs (processor), and garbage collect
synced rows. -/
inductive Reachable : DbState → Prop
  | init : Reachable DbState.empty
  | enqueue {st : DbState} (h : Reachable st) (ev : SyncEvent) (now : Int) :
      Reachable (enqueue_job ev now st).1
  | process {st : DbState} (h : Reachable st) (beh : RemoteDeleteBehavior)
      (env : RemoteEnv) (now : Int) (j : SyncJob)
      (hj : j ∈ st.sync_jobs) (hc : claimable now j = true) :
      Reachable (process_job beh env now j st).1
  | gc {st : DbState} (h : Reachable st) (older_than now : Int) :
      Reachable (delete_completed_jobs older_than now st).1

lemma dbok_empty : DbOK DbState.empty := by
  refine ⟨?_, ?_, ?_⟩ <;> intro j hj <;> simp [DbState.empty] at hj

lemma dbok_enqueue (ev : SyncEvent) (now : Int) (st : DbState) (h : DbOK st) :
    DbOK (enqueue_job ev now st).1 := by
  obtain ⟨h1, h2, h3⟩ := h
  refine ⟨?_, ?_, ?_⟩
  · intro j hj
    rcases List.mem_append.mp hj with hj | hj
    · exact h1 j hj
    · rw [List.mem_singleton] at hj
      subst hj
      exact ⟨Nat.zero_le 5, fun hs => by simp at hs⟩
  · intro j hj
    rcases List.mem_append.mp hj with hj | hj
    · have := h2 j hj
      simp only [enqueue_job]
      omega
    · rw [List.mem_singleton] at hj
      subst hj
      simp only [enqueue_job]
      omega
  · intro j hj k hk hid
    rcases List.mem_append.mp hj with hj | hj <;>
      rcases List.mem_append.mp hk with hk | hk
    · exact h3 j hj k hk hid
    · rw [List.mem_singleton] at hk
      subst hk
      exact absurd hid (by have := h2 j hj; simp; omega)
    · rw [List.mem_singleton] at hj
      subst hj
      exact absurd hid.symm (by have := h2 k hk; simp; omega)
    · rw [List.mem_singleton] at hj
      rw [List.mem_singleton] at hk
      subst hj
      subst hk
      rfl

lemma jobsok_map (jobs : List SyncJob) (next : Int) (h : JobsOK jobs next)
    (j : SyncJob) (hj : j ∈ jobs) (g : SyncJob → SyncJob)
    (hgid : (g j).id = j.id) (hgok : JobOK (g j)) :
    JobsOK (jobs.map (fun r => if r.id = j.id then g r else r)) next := by
  obtain ⟨h1, h2, h3⟩ := h
  have hFid : ∀ r ∈ jobs, ((fun r => if r.id = j.id then g r else r) r).id = r.id := by
    intro r hr
    by_cases hrid : r.id = j.id
    · have hrj : r = j := h3 r hr j hj hrid
      subst hrj
      simpa using hgid
    · simp [hrid]
  refine ⟨?_, ?_, ?_⟩
  · intro r' hr'
    rcases List.mem_map.mp hr' with ⟨r, hr, hmap⟩
    by_cases hrid : r.id = j.id
    · have hrj : r = j := h3 r hr j hj hrid
      subst hrj
      simp at hmap
      subst hmap
      exact hgok
    · simp [hrid] at hmap
      subst hmap
      exact h1 r hr
  · intro r' hr'
    rcases List.mem_map.mp hr' with ⟨r, hr, hmap⟩
    subst hmap
    rw [hFid r hr]
    exact h2 r hr
  · intro r' hr' k' hk' hid
    rcases List.mem_map.mp hr' with ⟨r, hr, hmapr⟩
    rcases List.mem_map.mp hk' with ⟨k, hk, hmapk⟩
    subst hmapr
    subst hmapk
    rw [hFid r hr, hFid k hk] at hid
    rw [h3 r hr k hk hid]

lemma dbok_process (beh : RemoteDeleteBehavior) (env : RemoteEnv) (now : Int)
    (j : SyncJob) (st : DbState) (hj : j ∈ st.sync_jobs) (h : DbOK st) :
    DbOK (process_job beh env now j st).1 := by
  have hnext := process_job_next_id beh env now j st
  unfold DbOK
  rw [hnext]
  rcases hres : (process_job beh env now j st).2.2 with e | u
  · by_cases hn : j.n_retries < 5
    · rw [process_job_jobs_retry beh env now j st e hres hn]
      exact jobsok_map st.sync_jobs st.next_id h j hj _ rfl
        ⟨by simp; omega, fun hs => by simp at hs⟩
    · rw [process_job_jobs_blocked beh env now j st e hres hn]
      exact jobsok_map st.sync_jobs st.next_id h j hj _ rfl
        ⟨(h.1 j hj).1, fun hs => by simp at hs⟩
  · cases u
    rw [process_job_jobs_ok beh env now j st hres]
    exact jobsok_map st.sync_jobs st.next_id h j hj _ rfl
      ⟨(h.1 j hj).1, fun _ => ⟨rfl, rfl⟩⟩

lemma dbok_gc (older_than now : Int) (st : DbState) (h : DbOK st) :
    DbOK (delete_completed_jobs older_than now st).1 := by
  obtain ⟨h1, h2, h3⟩ := h
  refine ⟨?_, ?_, ?_⟩
  · intro j hj
    exact h1 j (List.mem_of_mem_filter hj)
  · intro j hj
    exact h2 j (List.mem_of_mem_filter hj)
  · intro j hj k hk hid
    exact h3 j (List.mem_of_mem_filter hj) k (List.mem_of_mem_filter hk) hid

lemma reachable_dbok {st : DbState} (h : Reachable st) : DbOK st := by
  induction h with
  | init => exact dbok_empty
  | enqueue h ev now ih => exact dbok_enqueue ev now _ ih
  | process h beh env now j hj hc ih => exact dbok_process beh env now j _ hj ih
  | gc h older_than now ih => exact dbok_gc older_than now _ ih

/-- C5.  For every job reachable under the processor's step relation,
n_retries stays between 0 and 5 (it is a natural number, so 0 is a lower
bound by type), and a job is transitioned to BLOCKED, with a non-null
last_error, exactly when a handler failure is observed while its n_retries
is 5: a failure at n_retries < 5 leaves the row PROCESSING, and a success
marks it SYNCED. -/
theorem retries_bounded_blocked_iff (st : DbState) (h : Reachable st) :
    (∀ j ∈ st.sync_jobs, j.n_retries ≤ 5) ∧
    (∀ beh env now j e, j ∈ st.sync_jobs →
      (process_job beh env now j st).2.2 = Except.error e →
      ∀ r ∈ (process_job beh env now j st).1.sync_jobs, r.id = j.id →
        ((r.status = SyncJobStatus.blocked ↔ j.n_retries = 5) ∧
         (r.status = SyncJobStatus.blocked → r.last_error = some (errMessage e)))) ∧
    (∀ beh env now j, j ∈ st.sync_jobs →
      (process_job beh env now j st).2.2 = Except.ok () →
      ∀ r ∈ (process_job beh env now j st).1.sync_jobs, r.id = j.id →
        r.status = SyncJobStatus.synced) := by
  obtain ⟨h1, h2, h3⟩ := reachable_dbok h
  refine ⟨fun j hj => (h1 j hj).1, ?_, ?_⟩
  · intro beh env now j e hj hfail r hr hrid
    by_cases hn : j.n_retries < 5
    · rw [process_job_jobs_retry beh env now j st e hfail hn] at hr
      rcases List.mem_map.mp hr with ⟨r0, hr0, hmap⟩
      by_cases h0 : r0.id = j.id
      · have hr0j : r0 = j := h3 r0 hr0 j hj h0
        subst hr0j
        simp at hmap
        subst hmap
        constructor
        · constructor
          · intro hs
            simp at hs
          · intro h5
            omega
        · intro hs
          simp at hs
      · simp [h0] at hmap
        subst hmap
        exact absurd hrid h0
    · rw [process_job_jobs_blocked beh env now j st e hfail hn] at hr
      rcases List.mem_map.mp hr with ⟨r0, hr0, hmap⟩
      by_cases h0 : r0.id = j.id
      · have hr0j : r0 = j := h3 r0 hr0 j hj h0
        subst hr0j
        simp at hmap
        subst hmap
        exact ⟨⟨fun _ => by have hle := (h1 r0 hr0).1; omega, fun _ => rfl⟩,
               fun _ => rfl⟩
      · simp [h0] at hmap
        subst hmap
        exact absurd hrid h0
  · intro beh env now j hj hok r hr hrid
    rw [process_job_jobs_ok beh env now j st hok] at hr
    rcases List.mem_map.mp hr with ⟨r0, hr0, hmap⟩
    by_cases h0 : r0.id = j.id
    · have hr0j : r0 = j := h3 r0 hr0 j hj h0
      subst hr0j
      simp at hmap
      subst hmap
      rfl
    · simp [h0] at hmap
      subst hmap
      exact absurd hrid h0

/-- The event enqueued into the empty database by concrete witnesses. -/
def evA : SyncEvent :=
  { event_type := SyncEventType.createFile, local_path := "/a/x.txt",
    remote_path := "/r/x.txt", change_token := some "1700000000:3",
    old_local_path := none, old_remote_path := none }

/-- The database reached by enqueueing evA into the empty database at 0. -/
def stA : DbState := (enqueue_job evA 0 DbState.empty).1

lemma stA_reachable : Reachable stA :=
  Reachable.enqueue Reachable.init evA 0

/-- The row enqueue_job inserts for evA at time 0. -/
def jA : SyncJob :=
  { id := 0, event_type := SyncEventType.createFile, local_path := "/a/x.txt",
    remote_path := "/r/x.txt", status := SyncJobStatus.pending, retry_at := none,
    n_retries := 0, last_error := none, change_token := some "1700000000:3",
    old_local_path := none, old_remote_path := none, created_at := 0 }

/-- The row jA becomes after a failed first attempt at time 0. -/
def rA : SyncJob :=
  { jA with
    status := SyncJobStatus.processing
    n_retries := 1
    retry_at := some 60 }

theorem retries_bounded_blocked_iff_witness :
    jA.n_retries ≤ 5 ∧ (rA.status = SyncJobStatus.blocked ↔ jA.n_retries = 5) :=
  ⟨(retries_bounded_blocked_iff stA stA_reachable).1 jA (by decide),
   ((retries_bounded_blocked_iff stA stA_reachable).2.1 RemoteDeleteBehavior.trash
      envF 0 jA (SyncError.fileNotFound "/a/x.txt") (by decide) (by decide)
      rA (by decide) (by decide)).1⟩

/-- C6.  In every state reachable by the store operations as invoked by the
processor, every job with status SYNCED has a null retry_at and a null
last_error. -/
theorem synced_rows_clean (st : DbState) (h : Reachable st) :
    ∀ j ∈ st.sync_jobs, j.status = SyncJobStatus.synced →
      j.retry_at = none ∧ j.last_error = none :=
  fun j hj hs => ((reachable_dbok h).1 j hj).2 hs

/-- The database reached from stA by successfully processing jA at time 0. -/
def stB : DbState := (process_job RemoteDeleteBehavior.trash envOk 0 jA stA).1

lemma stB_reachable : Reachable stB :=
  Reachable.process stA_reachable RemoteDeleteBehavior.trash envOk 0 jA
    (by decide) (by decide)

/-- The SYNCED row of stB. -/
def rB : SyncJob :=
  { jA with status := SyncJobStatus.synced }

theorem synced_rows_clean_witness : rB.retry_at = none ∧ rB.last_error = none :=
  synced_rows_clean stB stB_reachable rB (by decide) (by decide)

lemma foldl_process_job_signals (beh : RemoteDeleteBehavior) (env : RemoteEnv)
    (now : Int) (jobs : List SyncJob) (acc : DbState) :
    (jobs.foldl (fun a j => (process_job beh env now j a).1) acc).signals =
      acc.signals := by
  induction jobs generalizing acc with
  | nil => rfl
  | cons j rest ih =>
    simp only [List.foldl_cons]
    rw [ih]
    exact process_job_signals beh env now j acc

/-- C3.  The Engine's periodic processor tick never reads or deletes a
signal row: the loop body of start_processor_task only claims and processes
jobs, and receive_signals has no caller anywhere in the source.  So a signal
row inserted by the CLI (here, pause) persists unchanged through the tick,
although the store's receive_signals would return the rows in insertion
order and delete them. -/
theorem engine_tick_never_drains_signals :
    (∀ state beh env now st,
      (processor_tick state beh env now st).signals = st.signals) ∧
    (processor_tick SyncState.running RemoteDeleteBehavior.trash envOk 0
        (cli_pause DbState.empty)).signals = ["pause"] ∧
    receive_signals (cli_pause DbState.empty) =
      ({ cli_pause DbState.empty with signals := [] }, ["pause"]) := by
  have hall : ∀ state beh env now st,
      (processor_tick state beh env now st).signals = st.signals := by
    intro state beh env now st
    unfold processor_tick
    by_cases hs : state = SyncState.running
    · rw [if_neg (by simp [hs])]
      exact foldl_process_job_signals beh env now _ st
    · rw [if_pos hs]
  refine ⟨hall, ?_, rfl⟩
  rw [hall]
  rfl

lemma enqueue_job_file_state (ev : SyncEvent) (now : Int) (st : DbState) :
    (enqueue_job ev now st).1.file_state = st.file_state := rfl

lemma scan_directory_file_state (fs : List FsEntry) (dir root : String)
    (excl : String → Bool) (now : Int) (st : DbState) :
    (scan_directory fs dir root excl now st).1.file_state = st.file_state := by
  induction fs generalizing st with
  | nil => rfl
  | cons entry rest ih =>
    simp only [scan_directory]
    cases hex : excl (dir ++ "/" ++ entry.rel)
    · cases hdir : entry.isDir
      · cases heh : (match get_file_state (dir ++ "/" ++ entry.rel) st with
          | some stored => stored.change_token != entry.token
          | none => true : Bool)
        · simp only [hex, hdir, heh, Bool.false_eq_true, if_false]
          exact ih st
        · simp only [hex, hdir, heh, Bool.false_eq_true, if_false, if_true]
          exact ih _
      · simp only [hex, hdir, Bool.false_eq_true, if_false, if_true]
        exact ih st
    · simp only [hex, if_true]
      exact ih st

lemma scan_directory_count_congr (fs : List FsEntry) (dir root : String)
    (excl : String → Bool) (now now2 : Int) (s1 s2 : DbState)
    (h : s1.file_state = s2.file_state) :
    (scan_directory fs dir root excl now s1).2 =
      (scan_directory fs dir root excl now2 s2).2 := by
  induction fs generalizing s1 s2 with
  | nil => rfl
  | cons entry rest ih =>
    simp only [scan_directory]
    have hget : get_file_state (dir ++ "/" ++ entry.rel) s1 =
        get_file_state (dir ++ "/" ++ entry.rel) s2 := by
      unfold get_file_state
      rw [h]
    cases hex : excl (dir ++ "/" ++ entry.rel)
    · cases hdir : entry.isDir
      · cases heh : (match get_file_state (dir ++ "/" ++ entry.rel) s2 with
          | some stored => stored.change_token != entry.token
          | none => true : Bool)
        · simp only [hex, hdir, hget, heh, Bool.false_eq_true, if_false]
          exact ih s1 s2 h
        · simp only [hex, hdir, hget, heh, Bool.false_eq_true, if_false, if_true]
          have hfs : ((enqueue_job
              { event_type := SyncEventType.update,
                local_path := dir ++ "/" ++ entry.rel,
                remote_path := PathUtils.join root entry.rel,
                change_token := some entry.token,
                old_local_path := none, old_remote_path := none } now s1).1).file_state =
              ((enqueue_job
              { event_type := SyncEventType.update,
                local_path := dir ++ "/" ++ entry.rel,
                remote_path := PathUtils.join root entry.rel,
                change_token := some entry.token,
                old_local_path := none, old_remote_path := none } now2 s2).1).file_state := by
            rw [enqueue_job_file_state, enqueue_job_file_state]
            exact h
          rw [ih _ _ hfs]
      · simp only [hex, hdir, Bool.false_eq_true, if_false, if_true]
        exact ih s1 s2 h
    · simp only [hex, if_true]
      exact ih s1 s2 h

/-- C7 (amended).  A Scanner run never mutates the FileState table, so when
the filesystem (and hence the FileState rows consulted) is identical across
two successive runs over the same root, the second run enqueues exactly as
many jobs as the first — which is zero exactly when every non-excluded
file's current token matches its stored FileState row, not merely because a
first run already happened. -/
theorem scan_directory_second_run (fs : List FsEntry) (dir root : String)
    (excl : String → Bool) (now now2 : Int) (st : DbState) :
    (scan_directory fs dir root excl now st).1.file_state = st.file_state ∧
    (scan_directory fs dir root excl now2
        (scan_directory fs dir root excl now st).1).2 =
      (scan_directory fs dir root excl now st).2 := by
  refine ⟨scan_directory_file_state fs dir root excl now st, ?_⟩
  exact scan_directory_count_congr fs dir root excl now2 now _ st
    (scan_directory_file_state fs dir root excl now st)

/-- The one-file filesystem used by the C7 counterexample. -/
def fsC : List FsEntry :=
  [{ rel := "x.txt", isDir := false, token := "1700000000:3" }]

/-- C7 counterexample.  One file on disk, no FileState row, no exclusions:
the first Scanner run enqueues one job and leaves FileState untouched, so
the filesystem and the FileState table are identical across the two runs,
yet the second run enqueues one job again, not zero. -/
theorem scan_second_run_nonzero :
    (scan_directory fsC "/a" "/r" (fun _ => false) 0 DbState.empty).1.file_state =
      DbState.empty.file_state ∧
    (scan_directory fsC "/a" "/r" (fun _ => false) 0 DbState.empty).2 = 1 ∧
    (scan_directory fsC "/a" "/r" (fun _ => false) 1
        (scan_directory fsC "/a" "/r" (fun _ => false) 0 DbState.empty).1).2 = 1 ∧
    ¬ (scan_directory fsC "/a" "/r" (fun _ => false) 1
        (scan_directory fsC "/a" "/r" (fun _ => false) 0 DbState.empty).1).2 = 0 := by
  refine ⟨rfl, rfl, rfl, by decide⟩

/-- A DELETE job used by concrete witnesses. -/
def jD : SyncJob :=
  { jW1 with event_type := SyncEventType.delete, change_token := none }

/-- C8 (amended).  With remote_delete_behavior = permanent the Processor
calls delete_node_permanent (never delete_node) on a DELETE job with an
existing NodeMapping; but the processor's behavior is fixed when the engine
is built: the config-reload tick replaces only the in-memory configuration
and never the processor's stored behavior, so a hot reload to trash does
not change what the next DELETE calls. -/
theorem delete_behavior_fixed_at_start (e : EngineModel) (file_changed : Bool)
    (new_cfg : ConfigModel) (env : RemoteEnv) (j : SyncJob) (st : DbState)
    (m : NodeMapping)
    (hm : get_node_mapping j.local_path j.remote_path st = some m) :
    (process_delete RemoteDeleteBehavior.permanent env j st).2.1 =
      [RemoteCall.deleteNodePermanentCall m.node_uid] ∧
    (∀ uid, RemoteCall.deleteNodeCall uid ∉
      (process_delete RemoteDeleteBehavior.permanent env j st).2.1) ∧
    (config_reload_tick file_changed new_cfg e).processor_behavior =
      e.processor_behavior ∧
    (sync_engine_new new_cfg).processor_behavior =
      new_cfg.remote_delete_behavior := by
  have htr : (process_delete RemoteDeleteBehavior.permanent env j st).2.1 =
      [RemoteCall.deleteNodePermanentCall m.node_uid] := by
    cases hd : env.delete_node_permanent_resp m.node_uid <;>
      simp [process_delete, hm, hd]
  refine ⟨htr, ?_, ?_, rfl⟩
  · intro uid
    rw [htr]
    simp
  · unfold config_reload_tick
    cases file_changed <;> simp

theorem delete_behavior_fixed_at_start_witness :
    (process_delete RemoteDeleteBehavior.permanent envOk jD stU).2.1 =
      [RemoteCall.deleteNodePermanentCall "N0"] :=
  (delete_behavior_fixed_at_start
      (sync_engine_new
        ⟨4, RemoteDeleteBehavior.permanent⟩)
      true
      ⟨4, RemoteDeleteBehavior.trash⟩
      envOk jD stU mU (by decide)).1

/-- The configuration with permanent deletes, for the C8 counterexample. -/
def cfgPerm : ConfigModel :=
  { sync_concurrency := 4, remote_delete_behavior := RemoteDeleteBehavior.permanent }

/-- The configuration with trash deletes, for the C8 counterexample. -/
def cfgTrash : ConfigModel :=
  { sync_concurrency := 4, remote_delete_behavior := RemoteDeleteBehavior.trash }

/-- C8 counterexample.  Build the engine with permanent deletes, hot-reload
the configuration to trash, then process a DELETE with an existing mapping:
the in-memory configuration now says trash, yet the call made is still
delete_node_permanent, and delete_node is never called. -/
theorem reload_then_delete_still_permanent :
    (config_reload_tick true cfgTrash (sync_engine_new cfgPerm)).config.remote_delete_behavior =
      RemoteDeleteBehavior.trash ∧
    (process_delete
        (config_reload_tick true cfgTrash (sync_engine_new cfgPerm)).processor_behavior
        envOk jD stU).2.1 = [RemoteCall.deleteNodePermanentCall "N0"] ∧
    RemoteCall.deleteNodeCall "N0" ∉
      (process_delete
        (config_reload_tick true cfgTrash (sync_engine_new cfgPerm)).processor_behavior
        envOk jD stU).2.1 := by
  refine ⟨rfl, rfl, by decide⟩
